import Mathlib

/-!
Verification development for the empirical-finance pipeline
(pull_wrds_data.py, prepare_data.py, do_analysis.py,
panel_eda_helper_funcs.py).

Dataframes are embedded as lists of rows (or lists of columns), numeric
cells as `Option ℚ` where `none` stands for a missing value (NaN); exact
rational arithmetic replaces floating point.  A division whose pandas
result would be `inf`, `-inf` or `NaN` (zero denominator or missing
operand) is embedded as `none`: in `prepare_data.main` such values are
mapped to NaN by `replace([inf, -inf], nan)` and then dropped by
`dropna`, so collapsing them into `none` is observation-equivalent for
every property below.
-/

namespace PipelineModel

/-- A row of the raw parquet file written by `pull_wrds_data.main`
(columns lower-cased by `prepare_data.main`).  Only the columns that
`prepare_data.main` reads are modelled. -/
structure RawRow where
  total_assets : Option ℚ
  common_equity : Option ℚ
  net_income : Option ℚ
  market_cap : Option ℚ
  deriving DecidableEq, Repr

/-- A row of the cleaned dataframe: the (unit-converted) raw columns
plus the two derived ratio columns `roa` and `pb`. -/
structure DataRow where
  total_assets : Option ℚ
  common_equity : Option ℚ
  net_income : Option ℚ
  market_cap : Option ℚ
  roa : Option ℚ
  pb : Option ℚ
  deriving DecidableEq, Repr

/-- Elementwise product with a scalar, NaN-propagating:
`df[col] = df[col] * c`. -/
def optScale (c : ℚ) (x : Option ℚ) : Option ℚ :=
  x.map (fun v => v * c)

/-- Elementwise division of two cells, as pandas computes `a / b`
followed by `replace([inf, -inf], nan)`: missing operands and zero
denominators both end up as NaN (`none`). -/
def optDiv (a b : Option ℚ) : Option ℚ :=
  match a, b with
  | some x, some y => if y = 0 then none else some (x / y)
  | _, _ => none

/-- `cell > 0` in pandas: comparisons with NaN are `False`. -/
def optPos (x : Option ℚ) : Bool :=
  match x with
  | some v => decide (0 < v)
  | none => false

/-- The unit-conversion block of `prepare_data.main`:
`total_assets`, `common_equity` and `net_income` are multiplied
by 1,000,000. -/
def scaleRow (r : RawRow) : RawRow :=
  { r with
    total_assets := optScale 1000000 r.total_assets
    common_equity := optScale 1000000 r.common_equity
    net_income := optScale 1000000 r.net_income }

/-- The ratio-computation block of `prepare_data.main`:
`roa = net_income / total_assets`, `pb = market_cap / common_equity`
(on the unit-converted row that survived the positivity filter). -/
def computeRatios (r : RawRow) : DataRow :=
  { total_assets := r.total_assets
    common_equity := r.common_equity
    net_income := r.net_income
    market_cap := r.market_cap
    roa := optDiv r.net_income r.total_assets
    pb := optDiv r.market_cap r.common_equity }

/-- The positivity filter `(common_equity > 0) & (total_assets > 0)`. -/
def posOk (r : RawRow) : Bool :=
  optPos r.common_equity && optPos r.total_assets

/-- The `dropna` filter on the roa and pb columns (after the inf → NaN
replacement already folded into `optDiv`). -/
def ratiosPresent (d : DataRow) : Bool :=
  d.roa.isSome && d.pb.isSome

/-- The extreme-value filter
`(pb > 0) & (pb < 50) & (roa > -1) & (roa < 1)`
(NaN comparisons are `False`). -/
def ratioRangeOk (d : DataRow) : Bool :=
  match d.pb, d.roa with
  | some pbv, some roav =>
      decide (0 < pbv) && decide (pbv < 50) &&
      decide (-1 < roav) && decide (roav < 1)
  | _, _ => false

/-- The cleaning pipeline of `prepare_data.main`, stage by stage:
unit conversion, positivity filter, ratio computation, NaN drop,
extreme-value filter. -/
def prepareRows (rows : List RawRow) : List DataRow :=
  let scaled := rows.map scaleRow
  let posRows := scaled.filter posOk
  let withRatios := posRows.map computeRatios
  let nonNa := withRatios.filter ratiosPresent
  nonNa.filter ratioRangeOk

/-- Outcome of one run of `prepare_data.main`: the dataframe written to
the processed-data file (if any) and whether a diagnostic error message
was printed. -/
structure PrepareOutcome where
  written : Option (List DataRow)
  diagPrinted : Bool
  deriving DecidableEq, Repr

/-- `prepare_data.main`: if the configured input file is missing, print
a diagnostic and return; otherwise clean the rows; if the result is
empty, print a diagnostic and write nothing, else write the parquet
file. -/
def prepare_data_main (inputExists : Bool) (rows : List RawRow) :
    PrepareOutcome :=
  if !inputExists then
    { written := none, diagPrinted := true }
  else
    let dfFinal := prepareRows rows
    if dfFinal.isEmpty then
      { written := none, diagPrinted := true }
    else
      { written := some dfFinal, diagPrinted := false }

/-- Membership characterisation of the cleaning pipeline: a row is in
the output iff it is the processed image of some raw row that passes
every filter. -/
theorem mem_prepareRows (rows : List RawRow) (d : DataRow) :
    d ∈ prepareRows rows ↔
      ∃ r ∈ rows, posOk (scaleRow r) = true ∧
        d = computeRatios (scaleRow r) ∧
        ratiosPresent d = true ∧ ratioRangeOk d = true := by
  simp only [prepareRows, List.mem_filter, List.mem_map]
  constructor
  · rintro ⟨⟨⟨r0, ⟨⟨r, hr, hrs⟩, hpos⟩, hd⟩, hna⟩, hrange⟩
    exact ⟨r, hr, by simpa [hrs] using hpos, by simp [hd.symm, hrs], hna, hrange⟩
  · rintro ⟨r, hr, hpos, hd, hna, hrange⟩
    exact ⟨⟨⟨scaleRow r, ⟨⟨r, hr, rfl⟩, hpos⟩, hd.symm⟩, hna⟩, hrange⟩

/-- Characterisation of a successful write: `prepare_data.main` writes
`out` iff the input file exists, `out` is the cleaned dataframe, and
that dataframe is non-empty. -/
theorem written_eq_some_iff (e : Bool) (rows : List RawRow)
    (out : List DataRow) :
    (prepare_data_main e rows).written = some out ↔
      e = true ∧ out = prepareRows rows ∧ prepareRows rows ≠ [] := by
  cases e with
  | false => simp [prepare_data_main]
  | true =>
    by_cases h : (prepareRows rows).isEmpty
    · simp [prepare_data_main, h, List.isEmpty_iff.mp h]
    · have hne : prepareRows rows ≠ [] := by
        simpa [List.isEmpty_iff] using h
      simp [prepare_data_main, h, hne, eq_comm]

/-- Scale invariance of cellwise division: multiplying numerator and
denominator by the same non-zero constant leaves the quotient (and its
definedness) unchanged. -/
theorem optDiv_optScale_optScale (c : ℚ) (hc : c ≠ 0)
    (a b : Option ℚ) :
    optDiv (optScale c a) (optScale c b) = optDiv a b := by
  cases a with
  | none => cases b <;> rfl
  | some x =>
    cases b with
    | none => rfl
    | some y =>
      by_cases hy : y = 0
      · simp [optDiv, optScale, hy, hc]
      · have hyc : y * c ≠ 0 := mul_ne_zero hy hc
        show (if y * c = 0 then none else some (x * c / (y * c))) =
          if y = 0 then none else some (x / y)
        rw [if_neg hy, if_neg hyc, mul_div_mul_right _ _ hc]

/-- A concrete raw row: total assets 1 (million), common equity 1
(million), net income 0, market cap 2,000,000.  It survives every
filter of `prepare_data.main` (`pb` = 2, `roa` = 0). -/
def exRawRow : RawRow :=
  { total_assets := some 1
    common_equity := some 1
    net_income := some 0
    market_cap := some 2000000 }

/-- The cleaned image of `exRawRow`. -/
def exDataRow : DataRow :=
  { total_assets := some 1000000
    common_equity := some 1000000
    net_income := some 0
    market_cap := some 2000000
    roa := some 0
    pb := some 2 }

theorem prepareRows_ex : prepareRows [exRawRow] = [exDataRow] := by
  norm_num [prepareRows, exRawRow, exDataRow, scaleRow, computeRatios,
    posOk, optPos, optScale, optDiv, ratiosPresent, ratioRangeOk,
    List.filter]

theorem prepare_main_ex :
    (prepare_data_main true [exRawRow]).written = some [exDataRow] := by
  rw [written_eq_some_iff]
  simp [prepareRows_ex]

/-- C2: every row of the cleaned dataset written by `prepare_data.main`
has `roa` equal to the net income of the raw row divided by its raw total
assets, and multiplying both by 1,000,000 before dividing leaves this
quotient unchanged. -/
theorem roa_eq_raw_ratio (e : Bool) (rows : List RawRow)
    (out : List DataRow)
    (hout : (prepare_data_main e rows).written = some out)
    (d : DataRow) (hd : d ∈ out) :
    ∃ r ∈ rows, d.roa = optDiv r.net_income r.total_assets ∧
      optDiv (optScale 1000000 r.net_income)
          (optScale 1000000 r.total_assets) =
        optDiv r.net_income r.total_assets := by
  obtain ⟨-, hofin, -⟩ := (written_eq_some_iff e rows out).mp hout
  subst hofin
  rcases (mem_prepareRows rows d).mp hd with ⟨r, hr, -, hdef, -, -⟩
  have hscale := optDiv_optScale_optScale 1000000 (by norm_num)
    r.net_income r.total_assets
  refine ⟨r, hr, ?_, hscale⟩
  rw [hdef]
  exact hscale

/-- C2 witness: the general theorem applied to the one-row dataset
`[exRawRow]`. -/
theorem roa_eq_raw_ratio_witness :
    ∃ r ∈ [exRawRow],
      exDataRow.roa = optDiv r.net_income r.total_assets ∧
      optDiv (optScale 1000000 r.net_income)
          (optScale 1000000 r.total_assets) =
        optDiv r.net_income r.total_assets :=
  roa_eq_raw_ratio true [exRawRow] [exDataRow] prepare_main_ex
    exDataRow (by simp)

/-- C1 counterexample: on the one-row dataset `[exRawRow]` the written
the `pb` column of the row is 2 (= 2,000,000 / (1 · 1,000,000)), not
`market_cap / common_equity` of the raw input file, which is
2,000,000 / 1 = 2,000,000. -/
theorem pb_raw_equity_counterexample :
    ¬ ∀ out, (prepare_data_main true [exRawRow]).written = some out →
        ∀ d ∈ out,
          d.pb = optDiv exRawRow.market_cap exRawRow.common_equity := by
  intro h
  have heq := h [exDataRow] prepare_main_ex exDataRow (by simp)
  rw [show exDataRow.pb = some 2 from rfl] at heq
  norm_num [optDiv, exRawRow] at heq

/-- C1 (amended): every row of the cleaned dataset written by
`prepare_data.main` has `pb` equal to the raw market
capitalization divided by 1,000,000 times the raw common equity (the
unit-converted common equity). -/
theorem pb_eq_converted_equity_ratio (e : Bool) (rows : List RawRow)
    (out : List DataRow)
    (hout : (prepare_data_main e rows).written = some out)
    (d : DataRow) (hd : d ∈ out) :
    ∃ r ∈ rows,
      d.pb = optDiv r.market_cap (optScale 1000000 r.common_equity) := by
  obtain ⟨-, hofin, -⟩ := (written_eq_some_iff e rows out).mp hout
  subst hofin
  rcases (mem_prepareRows rows d).mp hd with ⟨r, hr, -, hdef, -, -⟩
  exact ⟨r, hr, by rw [hdef]; rfl⟩

/-- C1 (amended) witness: the amended theorem applied to the one-row
dataset `[exRawRow]`. -/
theorem pb_eq_converted_equity_ratio_witness :
    ∃ r ∈ [exRawRow],
      exDataRow.pb = optDiv r.market_cap (optScale 1000000 r.common_equity) :=
  pb_eq_converted_equity_ratio true [exRawRow] [exDataRow]
    prepare_main_ex exDataRow (by simp)

/-- C3: every row of the dataset written by `prepare_data.main`
satisfies `common_equity > 0`, `total_assets > 0`, `0 < pb < 50` and
`-1 < roa < 1`; in particular `roa` and `pb` are present (non-NaN;
finiteness is inherent to exact rational cells, since `optDiv` maps
would-be infinities to `none` exactly as the inf → NaN
replacement feeds them into `dropna`). -/
theorem cleaned_row_invariants (e : Bool) (rows : List RawRow)
    (out : List DataRow)
    (hout : (prepare_data_main e rows).written = some out)
    (d : DataRow) (hd : d ∈ out) :
    optPos d.common_equity = true ∧ optPos d.total_assets = true ∧
    ∃ pbv roav, d.pb = some pbv ∧ d.roa = some roav ∧
      0 < pbv ∧ pbv < 50 ∧ -1 < roav ∧ roav < 1 := by
  obtain ⟨-, hofin, -⟩ := (written_eq_some_iff e rows out).mp hout
  subst hofin
  rcases (mem_prepareRows rows d).mp hd with ⟨r, -, hpos, hdef, hna, hrange⟩
  simp only [posOk, Bool.and_eq_true] at hpos
  simp only [ratiosPresent, Bool.and_eq_true] at hna
  obtain ⟨hce, hta⟩ := hpos
  obtain ⟨hroa, hpb⟩ := hna
  obtain ⟨roav, hroav⟩ := Option.isSome_iff_exists.mp hroa
  obtain ⟨pbv, hpbv⟩ := Option.isSome_iff_exists.mp hpb
  refine ⟨by rw [hdef]; exact hce, by rw [hdef]; exact hta,
    pbv, roav, hpbv, hroav, ?_⟩
  simp only [ratioRangeOk, hpbv, hroav, Bool.and_eq_true,
    decide_eq_true_eq] at hrange
  exact ⟨hrange.1.1.1, hrange.1.1.2, hrange.1.2, hrange.2⟩

/-- C3 witness: the invariants theorem applied to the one-row dataset
`[exRawRow]`. -/
theorem cleaned_row_invariants_witness :
    optPos exDataRow.common_equity = true ∧
    optPos exDataRow.total_assets = true ∧
    ∃ pbv roav, exDataRow.pb = some pbv ∧ exDataRow.roa = some roav ∧
      0 < pbv ∧ pbv < 50 ∧ -1 < roav ∧ roav < 1 :=
  cleaned_row_invariants true [exRawRow] [exDataRow] prepare_main_ex
    exDataRow (by simp)

/-- C5: `prepare_data.main` writes the processed-data file iff the
input file exists and the cleaned dataframe is non-empty; whenever it
writes nothing it prints a diagnostic, and what it writes is exactly
the cleaned dataframe. -/
theorem prepare_writes_iff (e : Bool) (rows : List RawRow) :
    ((prepare_data_main e rows).written ≠ none ↔
        e = true ∧ prepareRows rows ≠ []) ∧
    ((prepare_data_main e rows).written = none →
        (prepare_data_main e rows).diagPrinted = true) ∧
    ((prepare_data_main e rows).written ≠ none →
        (prepare_data_main e rows).written = some (prepareRows rows)) := by
  cases e with
  | false => simp [prepare_data_main]
  | true =>
    by_cases h : (prepareRows rows).isEmpty
    · simp [prepare_data_main, h, List.isEmpty_iff.mp h]
    · have hne : prepareRows rows ≠ [] := by
        simpa [List.isEmpty_iff] using h
      simp [prepare_data_main, h, hne]

/-- C5 witness: on a missing input file nothing is written and a
diagnostic is printed (the implication of the theorem discharged at
the concrete input). -/
theorem prepare_writes_iff_witness :
    (prepare_data_main false ([] : List RawRow)).written = none ∧
    (prepare_data_main false ([] : List RawRow)).diagPrinted = true :=
  ⟨rfl, (prepare_writes_iff false []).2.1 rfl⟩

/-- A row of the processed dataframe as read by `do_analysis.py`
(only the two ratio columns the script uses). -/
structure AnalysisRow where
  roa : Option ℚ
  pb : Option ℚ
  deriving DecidableEq, Repr

/-- The observable effects of one run of the `do_analysis.py` module
body: which diagnostics were printed, whether the processed-data file
was read, which `savefig` calls were reached (in order), and whether
the run stopped before the end of the module (via `exit()` or an
uncaught exception). -/
structure AnalysisOutcome where
  missingDiag : Bool
  smallSampleDiag : Bool
  dataRead : Bool
  figures : List String
  stoppedEarly : Bool
  deriving DecidableEq, Repr

/-- The profitable-firm filter of the second block,
`df[df['roa'] > 0]` (NaN comparisons are `False`). -/
def profitRows (rows : List AnalysisRow) : List AnalysisRow :=
  rows.filter (fun r => optPos r.roa)

/-- The module body of `do_analysis.py`.

* If the configured processed-data file is missing, it prints a
  diagnostic and calls `exit()`.
* Otherwise it reads the dataframe; if it has fewer than 2 rows it
  prints a diagnostic, else it computes the correlation and saves
  `roa_pb_scatter.png`.
* Control then falls through (there is no `exit()` in the small-sample
  branch) to a second module-level block, which reads the hard-coded
  file `data/generated/analysis_data.parquet` (modelled by
  `analysisFile`; `none` means the read raises and the script stops
  with no further output), filters to firms with `roa > 0` and plots
  them.  When that filtered frame is empty, `sns.regplot` raises on the
  empty data before the `savefig` call is reached, so no second figure
  is written and the script stops; otherwise `roa_pb_profit_only.png`
  is saved.  The statistics/plotting calls are otherwise library calls
  modelled only through their raise-on-empty and `savefig` effects. -/
def do_analysis (fileExists : Bool) (df : List AnalysisRow)
    (analysisFile : Option (List AnalysisRow)) : AnalysisOutcome :=
  if !fileExists then
    { missingDiag := true, smallSampleDiag := false, dataRead := false
      figures := [], stoppedEarly := true }
  else
    let small := df.length < 2
    let firstFigs : List String :=
      if small then [] else ["roa_pb_scatter.png"]
    match analysisFile with
    | none =>
        { missingDiag := false, smallSampleDiag := small
          dataRead := true, figures := firstFigs, stoppedEarly := true }
    | some rows =>
        if (profitRows rows).isEmpty then
          { missingDiag := false, smallSampleDiag := small
            dataRead := true, figures := firstFigs, stoppedEarly := true }
        else
          { missingDiag := false, smallSampleDiag := small
            dataRead := true
            figures := firstFigs ++ ["roa_pb_profit_only.png"]
            stoppedEarly := false }

/-- A concrete processed row with positive `roa`. -/
def exAnalysisRow : AnalysisRow := { roa := some (1/10), pb := some 2 }

theorem profitRows_ex : profitRows [exAnalysisRow] = [exAnalysisRow] := by
  norm_num [profitRows, optPos, exAnalysisRow, List.filter_cons]

/-- C4 counterexample: with a single-row processed dataset whose row
has `roa > 0` (and the hard-coded analysis file readable with the same
content), `do_analysis` prints the small-sample diagnostic but does
not exit: the appended second block still writes
`roa_pb_profit_only.png`, so a figure file is produced. -/
theorem small_sample_counterexample :
    [exAnalysisRow].length < 2 ∧
    (do_analysis true [exAnalysisRow] (some [exAnalysisRow])).smallSampleDiag
      = true ∧
    (do_analysis true [exAnalysisRow] (some [exAnalysisRow])).figures ≠ [] ∧
    (do_analysis true [exAnalysisRow] (some [exAnalysisRow])).stoppedEarly
      = false := by
  refine ⟨by norm_num, ?_, ?_, ?_⟩ <;> simp [do_analysis, profitRows_ex]

/-- C4 (amended): when the processed dataset has fewer than 2 rows,
`do_analysis` prints the small-sample diagnostic and does not write
`roa_pb_scatter.png`; it does not exit at that diagnostic: the second
module-level block still runs, and when the hard-coded analysis file
is readable and holds at least one row with `roa > 0` it writes
`roa_pb_profit_only.png`; when the readable file has no such row,
`regplot` raises on the empty filtered frame before `savefig`, so the
script stops with no figure at all. -/
theorem small_sample_behaviour (df : List AnalysisRow)
    (analysisFile : Option (List AnalysisRow)) (hlen : df.length < 2) :
    (do_analysis true df analysisFile).smallSampleDiag = true ∧
    "roa_pb_scatter.png" ∉ (do_analysis true df analysisFile).figures ∧
    (∀ rows, analysisFile = some rows → profitRows rows ≠ [] →
      "roa_pb_profit_only.png" ∈ (do_analysis true df analysisFile).figures ∧
      (do_analysis true df analysisFile).stoppedEarly = false) ∧
    (∀ rows, analysisFile = some rows → profitRows rows = [] →
      (do_analysis true df analysisFile).figures = [] ∧
      (do_analysis true df analysisFile).stoppedEarly = true) := by
  cases analysisFile with
  | none => simp [do_analysis, hlen]
  | some rows =>
    by_cases hp : (profitRows rows).isEmpty
    · simp [do_analysis, hlen, hp, List.isEmpty_iff.mp hp]
    · have hne : profitRows rows ≠ [] := by
        simpa [List.isEmpty_iff] using hp
      simp [do_analysis, hlen, hp, hne]

/-- C4 (amended) witness: the amended theorem at the concrete
single-row input whose row is profitable, with the profitable-case
implication discharged there. -/
theorem small_sample_behaviour_witness :
    (do_analysis true [exAnalysisRow] (some [exAnalysisRow])).smallSampleDiag
      = true ∧
    "roa_pb_scatter.png" ∉
      (do_analysis true [exAnalysisRow] (some [exAnalysisRow])).figures ∧
    ("roa_pb_profit_only.png" ∈
        (do_analysis true [exAnalysisRow] (some [exAnalysisRow])).figures ∧
      (do_analysis true [exAnalysisRow] (some [exAnalysisRow])).stoppedEarly
        = false) :=
  have h := small_sample_behaviour [exAnalysisRow] (some [exAnalysisRow])
    (by norm_num)
  ⟨h.1, h.2.1, h.2.2.1 [exAnalysisRow] rfl (by
    rw [profitRows_ex]
    exact List.cons_ne_nil _ _)⟩

/-- C10: when the configured processed-data file does not exist,
`do_analysis` prints the missing-file diagnostic and stops at once:
no data is read and no figure is written, whatever the data would have
been. -/
theorem missing_file_stops (df : List AnalysisRow)
    (analysisFile : Option (List AnalysisRow)) :
    do_analysis false df analysisFile =
      { missingDiag := true, smallSampleDiag := false, dataRead := false
        figures := [], stoppedEarly := true } := by
  rfl

/-- A row of the daily-quotes query result in `pull_wrds_data.main`
(`isin`, `datadate`, `prccd AS price_close`,
`cshoc AS shares_outstanding`).  Dates are totally ordered; days since
some epoch suffice. -/
structure MktRow where
  isin : String
  datadate : ℕ
  price_close : Option ℚ
  shares_outstanding : Option ℚ
  deriving DecidableEq, Repr

/-- Comparison key of `sort_values` on the datadate column. -/
def dateLe (a b : MktRow) : Prop := a.datadate ≤ b.datadate

instance : DecidableRel dateLe := fun a b => Nat.decLe a.datadate b.datadate

instance : IsTotal MktRow dateLe := ⟨fun a b => Nat.le_total a.datadate b.datadate⟩

instance : IsTrans MktRow dateLe := ⟨fun _ _ _ => Nat.le_trans⟩

/-- The `df_mkt_raw.sort_values` call: sort ascending by datadate. -/
def sortByDate (rows : List MktRow) : List MktRow :=
  List.insertionSort dateLe rows

/-- The `groupby` over isin followed by `tail 1`, on a dataframe in its current order:
keep a row iff no later row carries the same `isin`. -/
def keepLastPerIsin : List MktRow → List MktRow
  | [] => []
  | r :: rest =>
      if rest.any (fun s => decide (s.isin = r.isin)) then
        keepLastPerIsin rest
      else
        r :: keepLastPerIsin rest

/-- The market-data deduplication step of `pull_wrds_data.main`:
sort by datadate ascending, then keep the last row of each isin group. -/
def dedupMkt (rows : List MktRow) : List MktRow :=
  keepLastPerIsin (sortByDate rows)

theorem keepLastPerIsin_subset {l : List MktRow} {r : MktRow}
    (h : r ∈ keepLastPerIsin l) : r ∈ l := by
  induction l with
  | nil => simp [keepLastPerIsin] at h
  | cons x rest ih =>
    by_cases hx : (rest.any fun s => decide (s.isin = x.isin)) = true
    · rw [show keepLastPerIsin (x :: rest) = keepLastPerIsin rest from by
        simp [keepLastPerIsin, hx]] at h
      exact List.mem_cons_of_mem _ (ih h)
    · rw [show keepLastPerIsin (x :: rest) = x :: keepLastPerIsin rest from by
        simp [keepLastPerIsin, hx]] at h
      rcases List.mem_cons.mp h with hrx | hmem
      · exact hrx ▸ List.mem_cons_self x rest
      · exact List.mem_cons_of_mem _ (ih hmem)

theorem keepLastPerIsin_isin_nodup (l : List MktRow) :
    ((keepLastPerIsin l).map MktRow.isin).Nodup := by
  induction l with
  | nil => simp [keepLastPerIsin]
  | cons x rest ih =>
    by_cases hx : (rest.any fun s => decide (s.isin = x.isin)) = true
    · rw [show keepLastPerIsin (x :: rest) = keepLastPerIsin rest from by
        simp [keepLastPerIsin, hx]]
      exact ih
    · rw [show keepLastPerIsin (x :: rest) = x :: keepLastPerIsin rest from by
        simp [keepLastPerIsin, hx]]
      simp only [List.map_cons, List.nodup_cons]
      refine ⟨fun hmem => ?_, ih⟩
      obtain ⟨t, ht, hteq⟩ := List.mem_map.mp hmem
      exact hx (List.any_eq_true.mpr
        ⟨t, keepLastPerIsin_subset ht, by simp [hteq]⟩)

theorem keepLastPerIsin_max {l : List MktRow}
    (hs : List.Sorted dateLe l) {r : MktRow}
    (hr : r ∈ keepLastPerIsin l) :
    ∀ s ∈ l, s.isin = r.isin → s.datadate ≤ r.datadate := by
  induction l with
  | nil => simp [keepLastPerIsin] at hr
  | cons x rest ih =>
    obtain ⟨hx_le, hrest⟩ := List.sorted_cons.mp hs
    intro s hs_mem hisin
    by_cases hx : (rest.any fun t => decide (t.isin = x.isin)) = true
    · rw [show keepLastPerIsin (x :: rest) = keepLastPerIsin rest from by
        simp [keepLastPerIsin, hx]] at hr
      rcases List.mem_cons.mp hs_mem with hsx | hs_rest
      · exact hsx ▸ hx_le r (keepLastPerIsin_subset hr)
      · exact ih hrest hr s hs_rest hisin
    · have hnone : ∀ t ∈ rest, t.isin ≠ x.isin := by
        intro t ht
        by_contra heq
        exact hx (List.any_eq_true.mpr ⟨t, ht, by simpa using heq⟩)
      rw [show keepLastPerIsin (x :: rest) = x :: keepLastPerIsin rest from by
        simp [keepLastPerIsin, hx]] at hr
      rcases List.mem_cons.mp hr with hrx | hr_rest
      · subst hrx
        rcases List.mem_cons.mp hs_mem with hsx | hs_rest
        · exact hsx ▸ Nat.le_refl _
        · exact absurd hisin (hnone s hs_rest)
      · rcases List.mem_cons.mp hs_mem with hsx | hs_rest
        · exact absurd (hisin ▸ rfl : s.isin = r.isin)
            (by
              have hrrest := keepLastPerIsin_subset hr_rest
              have := hnone r hrrest
              rw [hsx]
              exact fun hh => this hh.symm)
        · exact ih hrest hr_rest s hs_rest hisin

/-- C8: after the deduplication step of `pull_wrds_data.main`, each
ISIN appears in at most one retained row, each retained row comes from
the query result, and its `datadate` is maximal among the rows of that ISIN
in the query result. -/
theorem mkt_dedup_unique_and_max (rows : List MktRow) :
    ((dedupMkt rows).map MktRow.isin).Nodup ∧
    ∀ r ∈ dedupMkt rows, r ∈ rows ∧
      ∀ s ∈ rows, s.isin = r.isin → s.datadate ≤ r.datadate := by
  have hperm := List.perm_insertionSort dateLe rows
  have hsorted : List.Sorted dateLe (sortByDate rows) :=
    List.sorted_insertionSort dateLe rows
  refine ⟨keepLastPerIsin_isin_nodup _, fun r hr => ?_⟩
  have hsub : r ∈ sortByDate rows := keepLastPerIsin_subset hr
  refine ⟨hperm.mem_iff.mp hsub, fun s hs hisin => ?_⟩
  exact keepLastPerIsin_max hsorted hr s (hperm.mem_iff.mpr hs) hisin

def exMktA27 : MktRow :=
  { isin := "DE0001", datadate := 27, price_close := none
    shares_outstanding := none }

def exMktB28 : MktRow :=
  { isin := "DE0002", datadate := 28, price_close := none
    shares_outstanding := none }

def exMktA29 : MktRow :=
  { isin := "DE0001", datadate := 29, price_close := none
    shares_outstanding := none }

def exMktRows : List MktRow := [exMktA27, exMktB28, exMktA29]

/-- C8 witness: the deduplication theorem at a concrete three-row
query result with a duplicated ISIN, instantiated at the retained
later-dated row. -/
theorem mkt_dedup_unique_and_max_witness :
    ((dedupMkt exMktRows).map MktRow.isin).Nodup ∧
    (exMktA29 ∈ exMktRows ∧
      ∀ s ∈ exMktRows, s.isin = exMktA29.isin →
        s.datadate ≤ exMktA29.datadate) :=
  ⟨(mkt_dedup_unique_and_max exMktRows).1,
    (mkt_dedup_unique_and_max exMktRows).2 exMktA29 (by decide)⟩

/-- Python `str.lower()`: lowercase every character. -/
def strLower (s : String) : String := ⟨s.data.map Char.toLower⟩

/-- The model specifications `PrepareRegressionTable` accepts. -/
def allowedModels : List String := ["auto", "ols", "logit"]

/-- The defaulting of the four effect/cluster arguments in
`PrepareRegressionTable.__init__`:
`[False] * len(dvs) if arg is None else arg`. -/
def effectsAttr (dvs : List String) (arg : Option (List Bool)) :
    List Bool :=
  arg.getD (List.replicate dvs.length false)

/-- The defaulting and lowering of the `models` argument:
a list of auto entries of the length of dvs when models is None, else the lowercased models. -/
def modelsAttr (dvs : List String) (models : Option (List String)) :
    List String :=
  (models.map (fun ms => ms.map strLower)).getD
    (List.replicate dvs.length "auto")

/-- The validation sequence of `PrepareRegressionTable.__init__`, in
source order: unknown model names, `logit` not implemented, the
seven-list equal-length check (`len({len(a) for a in ...}) > 1`,
modelled as: some length differs from `len(dvs)`), and non-empty
`byvar`.  `Except.error` stands for the raised exception. -/
def initRegressionChecks (dvs : List String) (idvs : List (List String))
    (entity_effects time_effects cluster_entity cluster_time :
      Option (List Bool))
    (models : Option (List String)) (byvar : String) :
    Except String Unit :=
  if ((modelsAttr dvs models).any fun m =>
      decide (m ∉ allowedModels)) = true then
    Except.error "models can only be \"auto\", \"ols\" or \"logit\""
  else if "logit" ∈ modelsAttr dvs models then
    Except.error "logit is not implemented yet, sorr\x79"
  else if ([dvs.length, idvs.length,
      (effectsAttr dvs entity_effects).length,
      (effectsAttr dvs time_effects).length,
      (effectsAttr dvs cluster_entity).length,
      (effectsAttr dvs cluster_time).length,
      (modelsAttr dvs models).length].any fun n =>
        decide (n ≠ dvs.length)) = true then
    Except.error "The following variables must have the same length"
  else if byvar ≠ "" then
    Except.error "Byvar is not implemented yet"
  else
    Except.ok ()

/-- C9: the constructor raises whenever the seven attribute lists do
not all share the length of `dvs`, or `models` contains an entry whose
lowercase form is not auto/ols/logit, or logit is requested, or
`byvar` is a non-empty string. -/
theorem regression_ctor_raises (dvs : List String)
    (idvs : List (List String))
    (entity_effects time_effects cluster_entity cluster_time :
      Option (List Bool))
    (models : Option (List String)) (byvar : String)
    (h :
      (¬ (idvs.length = dvs.length ∧
          (effectsAttr dvs entity_effects).length = dvs.length ∧
          (effectsAttr dvs time_effects).length = dvs.length ∧
          (effectsAttr dvs cluster_entity).length = dvs.length ∧
          (effectsAttr dvs cluster_time).length = dvs.length ∧
          (modelsAttr dvs models).length = dvs.length)) ∨
      (∃ m ∈ modelsAttr dvs models, m ∉ allowedModels) ∨
      "logit" ∈ modelsAttr dvs models ∨
      byvar ≠ "") :
    ∃ e, initRegressionChecks dvs idvs entity_effects time_effects
      cluster_entity cluster_time models byvar = Except.error e := by
  by_cases g1 : ((modelsAttr dvs models).any fun m =>
      decide (m ∉ allowedModels)) = true
  · exact ⟨_, by rw [initRegressionChecks, if_pos g1]⟩
  · by_cases g2 : "logit" ∈ modelsAttr dvs models
    · exact ⟨_, by rw [initRegressionChecks, if_neg g1, if_pos g2]⟩
    · by_cases g3 : ([dvs.length, idvs.length,
          (effectsAttr dvs entity_effects).length,
          (effectsAttr dvs time_effects).length,
          (effectsAttr dvs cluster_entity).length,
          (effectsAttr dvs cluster_time).length,
          (modelsAttr dvs models).length].any fun n =>
            decide (n ≠ dvs.length)) = true
      · exact ⟨_, by rw [initRegressionChecks, if_neg g1, if_neg g2,
          if_pos g3]⟩
      · by_cases g4 : byvar ≠ ""
        · exact ⟨_, by rw [initRegressionChecks, if_neg g1, if_neg g2,
            if_neg g3, if_pos g4]⟩
        · exfalso
          have hall : ∀ n ∈ [dvs.length, idvs.length,
              (effectsAttr dvs entity_effects).length,
              (effectsAttr dvs time_effects).length,
              (effectsAttr dvs cluster_entity).length,
              (effectsAttr dvs cluster_time).length,
              (modelsAttr dvs models).length], n = dvs.length := by
            intro n hn
            by_contra hne
            exact g3 (List.any_eq_true.mpr ⟨n, hn, decide_eq_true hne⟩)
          rcases h with h1 | h2 | h3 | h4
          · refine h1 ⟨hall _ ?_, hall _ ?_, hall _ ?_, hall _ ?_,
              hall _ ?_, hall _ ?_⟩ <;> simp
          · obtain ⟨m, hm, hnot⟩ := h2
            exact g1 (List.any_eq_true.mpr ⟨m, hm, decide_eq_true hnot⟩)
          · exact g2 h3
          · exact g4 h4

/-- C9 witness: the theorem at a concrete call with an unknown model
name ("bogus"). -/
theorem regression_ctor_raises_witness :
    ∃ e, initRegressionChecks ["y"] [["x"]] none none none none
      (some ["bogus"]) "" = Except.error e :=
  regression_ctor_raises ["y"] [["x"]] none none none none
    (some ["bogus"]) ""
    (Or.inr (Or.inl ⟨"bogus", by decide, by decide⟩))

/-- A dataframe column as seen by the EDA helpers: numeric (float
cells, NaN = `none`) or non-numeric. -/
inductive ColData
  | nums (cells : List (Option ℚ))
  | strs (cells : List String)
  deriving DecidableEq, Repr

/-- A dataframe: named columns in order. -/
abbrev Frame := List (String × ColData)

/-- `df.select_dtypes(include=np.number)`: the numeric columns, in
order, with their cell lists. -/
def numericCols (df : Frame) : List (String × List (Option ℚ)) :=
  df.filterMap (fun p =>
    match p.2 with
    | ColData.nums cells => some (p.1, cells)
    | ColData.strs _ => none)

/-- The non-missing values of a column (pandas statistics skip NaN). -/
def dropNa (cells : List (Option ℚ)) : List ℚ := cells.filterMap id

/-- Mean of the non-missing values (0 on an empty list, where pandas
reports NaN; no claim constrains that cell). -/
def colMean (vs : List ℚ) : ℚ := vs.sum / (vs.length : ℚ)

/-- Sum of squared deviations from the mean. -/
def devSqSum (vs : List ℚ) : ℚ :=
  (vs.map (fun x => (x - colMean vs) ^ 2)).sum

/-- Sample variance with ddof = 1, as `pandas.DataFrame.describe`
uses for `std` (0 on lists of length ≤ 1, where pandas reports NaN). -/
def sampleVar (vs : List ℚ) : ℚ := devSqSum vs / ((vs.length : ℚ) - 1)

def colMin (vs : List ℚ) : ℚ :=
  match vs with
  | [] => 0
  | x :: rest => rest.foldl min x

def colMax (vs : List ℚ) : ℚ :=
  match vs with
  | [] => 0
  | x :: rest => rest.foldl max x

/-- The values in ascending order. -/
def sortedVals (vs : List ℚ) : List ℚ :=
  List.insertionSort (fun a b => a ≤ b) vs

/-- Linear-interpolation quantile, as pandas computes the 25 %, 50 %
and 75 % rows of `describe`: with `h = p (n - 1)`, interpolate between
the values at positions `⌊h⌋` and `⌊h⌋ + 1` of the sorted list. -/
def quantile (vs : List ℚ) (p : ℚ) : ℚ :=
  let s := sortedVals vs
  let h : ℚ := p * ((s.length : ℚ) - 1)
  let i : ℕ := h.floor.toNat
  let lower := s.getD i 0
  lower + (h - (i : ℚ)) * (s.getD (i + 1) lower - lower)

/-- A cell of the descriptive table.  `int` is the `N` column after
the `astype` cast of the N column to int; `sqrtVal q` denotes the nonnegative square
root of `q` (the standard deviation is irrational in general, so it is
carried in exact form). -/
inductive StatCell
  | int (n : ℕ)
  | val (q : ℚ)
  | sqrtVal (q : ℚ)
  deriving DecidableEq, Repr

/-- The eight column labels `describe().transpose()` is renamed to in
`prepare_descriptive_table`. -/
def descStatLabels : List String :=
  ["N", "Mean", "Std. dev.", "Min.", "25 \\%", "Median", "75 \\%", "Max."]

/-- One row of the transposed `describe()` output: count, mean, std,
min, quartiles, max of the non-missing values of the column. -/
def describeCol (cells : List (Option ℚ)) : List StatCell :=
  let vs := dropNa cells
  [StatCell.int vs.length,
   StatCell.val (colMean vs),
   StatCell.sqrtVal (sampleVar vs),
   StatCell.val (colMin vs),
   StatCell.val (quantile vs (1 / 4)),
   StatCell.val (quantile vs (1 / 2)),
   StatCell.val (quantile vs (3 / 4)),
   StatCell.val (colMax vs)]

/-- `prepare_descriptive_table`, up to LaTeX rendering: per numeric
column, the eight labelled statistics. -/
def prepare_descriptive_table (df : Frame) :
    List (String × List (String × StatCell)) :=
  (numericCols df).map (fun p => (p.1, descStatLabels.zip (describeCol p.2)))

/-- C6: the descriptive table covers exactly the numeric columns of
the input dataframe, reports per column exactly the eight statistics
labelled N, Mean, Std. dev., Min., 25 %, Median, 75 %, Max., and the N
cell is an integer (the non-missing count).  The hypothesis excludes
the frame with no numeric columns, on which `describe()` raises. -/
theorem descriptive_table_shape (df : Frame)
    (_hne : numericCols df ≠ []) :
    (prepare_descriptive_table df).map Prod.fst =
      (numericCols df).map Prod.fst ∧
    ∀ row ∈ prepare_descriptive_table df,
      row.2.map Prod.fst = descStatLabels ∧
      ∃ n, ("N", StatCell.int n) ∈ row.2 := by
  constructor
  · simp [prepare_descriptive_table]
  · intro row hrow
    obtain ⟨p, -, hdef⟩ := List.mem_map.mp hrow
    subst hdef
    constructor
    · exact List.map_fst_zip descStatLabels (describeCol p.2)
        (by simp [descStatLabels, describeCol])
    · exact ⟨(dropNa p.2).length, by simp [descStatLabels, describeCol]⟩

/-- A concrete two-column frame with one numeric and one string
column. -/
def exFrame : Frame :=
  [("year", ColData.nums [some 2022, some 2023]),
   ("isin", ColData.strs ["DE0001", "DE0002"])]

/-- C6 witness: the shape theorem at `exFrame`, with the second
conjunct instantiated at the numeric row of the table. -/
theorem descriptive_table_shape_witness :
    (prepare_descriptive_table exFrame).map Prod.fst =
      (numericCols exFrame).map Prod.fst ∧
    ((("year", descStatLabels.zip
        (describeCol [some 2022, some 2023])) :
          String × List (String × StatCell)).2.map Prod.fst =
        descStatLabels ∧
      ∃ n, ("N", StatCell.int n) ∈
        (("year", descStatLabels.zip
          (describeCol [some 2022, some 2023])) :
            String × List (String × StatCell)).2) :=
  ⟨(descriptive_table_shape exFrame (by simp [numericCols, exFrame])).1,
    (descriptive_table_shape exFrame (by simp [numericCols, exFrame])).2
      _ (by simp [prepare_descriptive_table, numericCols, exFrame])⟩

/-- Deviations from the mean. -/
def centered (vs : List ℚ) : List ℚ := vs.map (fun x => x - colMean vs)

/-- Pairwise product sum of two equally long lists. -/
def dotSum (xs ys : List ℚ) : ℚ :=
  ((xs.zip ys).map (fun p => p.1 * p.2)).sum

/-- An exact representation of a scipy correlation coefficient
`r = num / √den`: `pearsonr` returns
`Σ(x-x̄)(y-ȳ) / √(Σ(x-x̄)² · Σ(y-ȳ)²)`, which is irrational in
general, so numerator and radicand are carried exactly. -/
structure CorrVal where
  num : ℚ
  den : ℚ
  deriving DecidableEq, Repr

/-- `scipy.stats.pearsonr` on two columns, in exact form. -/
def pearsonVal (xs ys : List ℚ) : CorrVal :=
  { num := dotSum (centered xs) (centered ys)
    den := dotSum (centered xs) (centered xs) *
      dotSum (centered ys) (centered ys) }

/-- The average rank (scipy `rankdata`, default method) of `x` within
`vs`: with `L` strictly smaller and `E` equal values it occupies
positions `L+1 … L+E`, whose mean is `L + (E+1)/2`. -/
def rankOf (vs : List ℚ) (x : ℚ) : ℚ :=
  (vs.countP (fun y => decide (y < x)) : ℚ) +
    ((vs.countP (fun y => decide (y = x)) : ℚ) + 1) / 2

def ranks (vs : List ℚ) : List ℚ := vs.map (rankOf vs)

/-- `scipy.stats.spearmanr` on two columns: Pearson correlation of the
average ranks, in exact form. -/
def spearmanVal (xs ys : List ℚ) : CorrVal :=
  pearsonVal (ranks xs) (ranks ys)

/-- NaN propagation (the default propagate nan_policy): a column with any
missing cell makes the coefficient NaN (`none`). -/
def denseVals (cells : List (Option ℚ)) : Option (List ℚ) :=
  if cells.all Option.isSome then some (cells.filterMap id) else none

def pearsonCell (a b : List (Option ℚ)) : Option CorrVal :=
  match denseVals a, denseVals b with
  | some xs, some ys => some (pearsonVal xs ys)
  | _, _ => none

def spearmanCell (a b : List (Option ℚ)) : Option CorrVal :=
  match denseVals a, denseVals b with
  | some xs, some ys => some (spearmanVal xs ys)
  | _, _ => none

/-- The correlation matrix of `prepare_correlation_table`, up to LaTeX
rendering: start from the full Spearman matrix of `spearmanr(df)`, then
the nested loop sets every diagonal entry to NaN (rendered blank by
the empty na_rep) and overwrites every entry with `i < j` by
`pearsonr(df.iloc[:, i], df.iloc[:, j])`. -/
def prepare_correlation_table (df : Frame) :
    List (List (Option CorrVal)) :=
  let cols := (numericCols df).map Prod.snd
  let n := cols.length
  (List.range n).map (fun i =>
    (List.range n).map (fun j =>
      if i = j then none
      else if i < j then pearsonCell (cols.getD i []) (cols.getD j [])
      else spearmanCell (cols.getD i []) (cols.getD j [])))

theorem dotSum_comm (xs ys : List ℚ) : dotSum xs ys = dotSum ys xs := by
  induction xs generalizing ys with
  | nil => cases ys <;> simp [dotSum]
  | cons x rest ih =>
    cases ys with
    | nil => simp [dotSum]
    | cons y yrest =>
      simp only [dotSum, List.zip_cons_cons, List.map_cons, List.sum_cons]
      rw [mul_comm]
      exact congrArg _ (ih yrest)

theorem pearsonVal_comm (xs ys : List ℚ) :
    pearsonVal xs ys = pearsonVal ys xs := by
  unfold pearsonVal
  rw [dotSum_comm (centered xs) (centered ys), mul_comm]

theorem spearmanCell_comm (a b : List (Option ℚ)) :
    spearmanCell a b = spearmanCell b a := by
  unfold spearmanCell
  cases denseVals a <;> cases denseVals b <;>
    simp [spearmanVal, pearsonVal_comm]

theorem getD_getD_range_map {α : Type} (n i j : ℕ) (f : ℕ → ℕ → α)
    (d : α) (hi : i < n) (hj : j < n) :
    (((List.range n).map (fun a =>
        (List.range n).map (fun b => f a b))).getD i []).getD j d =
      f i j := by
  have h1 : ((List.range n).map (fun a =>
      (List.range n).map (fun b => f a b))).getD i [] =
        (List.range n).map (fun b => f i b) := by
    rw [List.getD_eq_getElem _ _ (by simpa using hi)]
    rw [List.getElem_map, List.getElem_range]
  rw [h1, List.getD_eq_getElem _ _ (by simpa using hj)]
  rw [List.getElem_map, List.getElem_range]

/-- C7: in the matrix built by `prepare_correlation_table` over the
numeric columns, every entry strictly above the diagonal is the
Pearson correlation of columns `i` and `j`, every entry strictly below
is the Spearman correlation (in either orientation: it is symmetric),
and every diagonal entry is NaN.  The hypothesis `2 ≤ n` excludes the
single-column frame, on which `spearmanr` fails. -/
theorem correlation_table_cells (df : Frame) (i j : ℕ)
    (_hn : 2 ≤ (numericCols df).length)
    (hi : i < (numericCols df).length)
    (hj : j < (numericCols df).length) :
    (i = j →
      ((prepare_correlation_table df).getD i []).getD j none = none) ∧
    (i < j →
      ((prepare_correlation_table df).getD i []).getD j none =
        pearsonCell (((numericCols df).map Prod.snd).getD i [])
          (((numericCols df).map Prod.snd).getD j [])) ∧
    (j < i →
      ((prepare_correlation_table df).getD i []).getD j none =
        spearmanCell (((numericCols df).map Prod.snd).getD i [])
          (((numericCols df).map Prod.snd).getD j []) ∧
      ((prepare_correlation_table df).getD i []).getD j none =
        spearmanCell (((numericCols df).map Prod.snd).getD j [])
          (((numericCols df).map Prod.snd).getD i [])) := by
  have hlen : ((numericCols df).map Prod.snd).length =
      (numericCols df).length := List.length_map _ _
  have hcell :
      ((prepare_correlation_table df).getD i []).getD j none =
        (if i = j then none
         else if i < j then
           pearsonCell (((numericCols df).map Prod.snd).getD i [])
             (((numericCols df).map Prod.snd).getD j [])
         else
           spearmanCell (((numericCols df).map Prod.snd).getD i [])
             (((numericCols df).map Prod.snd).getD j [])) := by
    unfold prepare_correlation_table
    exact getD_getD_range_map _ i j _ none (by rw [hlen]; exact hi)
      (by rw [hlen]; exact hj)
  refine ⟨fun hij => ?_, fun hij => ?_, fun hij => ?_⟩
  · rw [hcell, if_pos hij]
  · rw [hcell, if_neg (Nat.ne_of_lt hij), if_pos hij]
  · have hne : ¬ i = j := (Nat.ne_of_lt hij).symm
    have hnlt : ¬ i < j := Nat.lt_asymm hij
    rw [hcell, if_neg hne, if_neg hnlt]
    exact ⟨rfl, spearmanCell_comm _ _⟩

/-- A concrete frame with two numeric columns. -/
def exFrame2 : Frame :=
  [("roa", ColData.nums [some 1, some 2, some 3]),
   ("pb", ColData.nums [some 2, some 1, some 4])]

/-- C7 witness: the cell theorem at `exFrame2`, instantiated at the
below-diagonal cell (1, 0). -/
theorem correlation_table_cells_witness :
    ((prepare_correlation_table exFrame2).getD 1 []).getD 0 none =
      spearmanCell (((numericCols exFrame2).map Prod.snd).getD 1 [])
        (((numericCols exFrame2).map Prod.snd).getD 0 []) ∧
    ((prepare_correlation_table exFrame2).getD 1 []).getD 0 none =
      spearmanCell (((numericCols exFrame2).map Prod.snd).getD 0 [])
        (((numericCols exFrame2).map Prod.snd).getD 1 []) :=
  (correlation_table_cells exFrame2 1 0
    (by simp [numericCols, exFrame2])
    (by simp [numericCols, exFrame2])
    (by simp [numericCols, exFrame2])).2.2 (by norm_num)

end PipelineModel
